import Mathlib

/-!
stty-plus: setting a custom baud rate through `TCSETS2`

A shallow embedding of `stty-plus.c`.  The program is one `main` that opens a
device, reads its `struct termios2`, rewrites the baud fields and writes the
block back.  Operating-system calls are modelled by explicit state passing over
a `World` (the live device configuration plus the trace of requests and output
produced so far); what the calls return is given by a `Platform` oracle.

C integers are modelled by `Int`/`Nat` with explicit wrapping at 32 bits.
-/

namespace SttyPlus

/-! ## Machine integers -/

/-- Conversion of a C integer value to `unsigned int` (32 bits): reduction modulo `2^32`. -/
def to_u32 (v : Int) : Nat := (v % 4294967296).toNat

/-- Conversion of a C integer value to `int` (32 bits, two's complement). -/
def to_i32 (v : Int) : Int :=
  let m := v % 4294967296
  if m < 2147483648 then m else m - 4294967296

/-- Smallest value of C `long` on the LP64 targets the program is built for. -/
def LONG_MIN : Int := -9223372036854775808

/-- Largest value of C `long` on the LP64 targets the program is built for. -/
def LONG_MAX : Int := 9223372036854775807

/-! ## The platform's `atoi` -/

/-- The C-locale `isspace`: space, `\t`, `\n`, `\v`, `\f`, `\r`. -/
def isspace (c : Char) : Bool :=
  c.toNat = 32 || (9 ≤ c.toNat && c.toNat ≤ 13)

/-- The C-locale `isdigit`. -/
def isdigit (c : Char) : Bool :=
  48 ≤ c.toNat && c.toNat ≤ 57

/-- Accumulate the leading run of decimal digits of `s` onto `acc`. -/
def digits_value : Nat → List Char → Nat
  | acc, [] => acc
  | acc, c :: cs => if isdigit c then digits_value (acc * 10 + (c.toNat - 48)) cs else acc

/-- Optional sign in front of the digits: whether it is `-`, and what follows it. -/
def take_sign : List Char → Bool × List Char
  | c :: cs => if c = '-' then (true, cs) else if c = '+' then (false, cs) else (false, c :: cs)
  | [] => (false, [])

/-- Modelled from the spec: `strtol(s, NULL, 10)` of the platform's C library, which is
not part of this repository.  Leading white space is skipped, an optional sign is read,
then the longest run of decimal digits; what follows is ignored, no digits give `0`, and
a value outside `long` is clamped to `LONG_MIN`/`LONG_MAX`. -/
def strtol (s : List Char) : Int :=
  let r := take_sign (s.dropWhile isspace)
  let n : Int := (digits_value 0 r.2 : Nat)
  let v : Int := if r.1 then -n else n
  if v < LONG_MIN then LONG_MIN else if LONG_MAX < v then LONG_MAX else v

/-- Modelled from the spec: `atoi` of the platform's C library ("the platform's standard
lenient string-to-integer conversion"), which is not part of this repository:
`(int) strtol(s, NULL, 10)`. -/
def atoi (s : String) : Int := to_i32 (strtol s.toList)

/-! ## Data model -/

/-- The two control-flag constants that `main` takes from `<asm/termios.h>`.  Their
values belong to the kernel headers of the target architecture. -/
structure Termbits where
  /-- Mask of the baud-selection subfield of `c_cflag`. -/
  CBAUD : Nat
  /-- Marker bit: use `c_ispeed`/`c_ospeed` instead of a table index. -/
  BOTHER : Nat
  deriving DecidableEq, Repr

/-- What every Linux `termbits.h` guarantees of the two constants: they are non-negative
`int` constants and the marker bit lies inside the baud-selection subfield. -/
def Termbits.wf (hdr : Termbits) : Prop :=
  hdr.CBAUD < 2147483648 ∧ hdr.BOTHER &&& hdr.CBAUD = hdr.BOTHER

instance (hdr : Termbits) : Decidable hdr.wf := by
  unfold Termbits.wf; infer_instance

/-- The values of `asm-generic/termbits.h` (x86, arm, ...): `CBAUD = 0010017`,
`BOTHER = 0010000`. -/
def asm_generic : Termbits := { CBAUD := 4111, BOTHER := 4096 }

/-- Fields of `struct termios2` of `<asm/termios.h>`, in declaration order. -/
structure termios2 where
  c_iflag : Nat
  c_oflag : Nat
  c_cflag : Nat
  c_lflag : Nat
  c_line : Nat
  c_cc : List Nat
  c_ispeed : Nat
  c_ospeed : Nat
  deriving DecidableEq, Repr

/-- Access mode given to `open`. -/
inductive OpenFlag where
  | O_RDONLY
  deriving DecidableEq, Repr

/-- What the process does that is visible from outside: output and OS requests. -/
inductive Event where
  /-- Text written to standard output by `printf`. -/
  | printf (text : String)
  /-- A `perror(s)` line on standard error: `s`, a colon and the OS error description. -/
  | perror (s : String)
  /-- The request `open(pathname, flags)`. -/
  | c_open (pathname : String) (flags : OpenFlag)
  /-- The request `ioctl(fd, TCGETS2, &tio2)`. -/
  | ioctl_TCGETS2 (fd : Int)
  /-- The request `ioctl(fd, TCSETS2, &tio2)` with the block pointed to. -/
  | ioctl_TCSETS2 (fd : Int) (arg : termios2)
  /-- The request `close(fd)`. -/
  | close (fd : Int)
  deriving DecidableEq, Repr

/-- The device's live configuration and the trace of events so far, oldest first. -/
structure World where
  dev : termios2
  trace : List Event
  deriving DecidableEq, Repr

/-- What the source leaves to the platform: the value each OS call returns, and the
indeterminate initial contents of the automatic variable `tio2`. -/
structure Platform where
  /-- Return value of `open(pathname, O_RDONLY)`: a descriptor, or `-1`. -/
  open_ret : String → Int
  /-- Return value of `ioctl(fd, TCGETS2, _)`: `0` when the kernel filled the block. -/
  tcgets2_rc : Int → Int
  /-- Return value of `ioctl(fd, TCSETS2, arg)`: `0` when the kernel applied the block. -/
  tcsets2_rc : Int → termios2 → Int
  /-- Contents of `tio2` before anything is stored in it. -/
  tio2_uninit : termios2

/-! ## OS calls -/

/-- Library call `printf(text)`. -/
def printf (text : String) (w : World) : World :=
  { w with trace := w.trace ++ [Event.printf text] }

/-- Library call `perror(s)`. -/
def perror (s : String) (w : World) : World :=
  { w with trace := w.trace ++ [Event.perror s] }

/-- System call `open(pathname, flags)`. -/
def c_open (k : Platform) (pathname : String) (flags : OpenFlag) (w : World) : Int × World :=
  (k.open_ret pathname, { w with trace := w.trace ++ [Event.c_open pathname flags] })

/-- System call `ioctl(fd, TCGETS2, &arg)`: on success the device's configuration is
copied into `arg`, otherwise `arg` is left as it was. -/
def ioctl_TCGETS2 (k : Platform) (fd : Int) (arg : termios2) (w : World) :
    Int × termios2 × World :=
  let rc := k.tcgets2_rc fd
  (rc, if rc = 0 then w.dev else arg, { w with trace := w.trace ++ [Event.ioctl_TCGETS2 fd] })

/-- System call `ioctl(fd, TCSETS2, &arg)`: on success `arg` replaces the device's
configuration, otherwise the configuration is left as it was. -/
def ioctl_TCSETS2 (k : Platform) (fd : Int) (arg : termios2) (w : World) : Int × World :=
  let rc := k.tcsets2_rc fd arg
  (rc, { dev := if rc = 0 then arg else w.dev,
         trace := w.trace ++ [Event.ioctl_TCSETS2 fd arg] })

/-- System call `close(fd)`. -/
def close (fd : Int) (w : World) : World :=
  { w with trace := w.trace ++ [Event.close fd] }

/-! ## The program -/

/-- Lines 102-105 of `stty-plus.c`, the in-memory mutation of the block:
`c_cflag &= ~CBAUD; c_cflag |= BOTHER; c_ispeed = speed; c_ospeed = speed;`
with `speed` an `int` and the three fields `unsigned int`. -/
def set_speed (hdr : Termbits) (speed : Int) (tio2 : termios2) : termios2 :=
  let tio2 := { tio2 with c_cflag := tio2.c_cflag &&& to_u32 (-(hdr.CBAUD : Int) - 1) }
  let tio2 := { tio2 with c_cflag := tio2.c_cflag ||| to_u32 (hdr.BOTHER : Int) }
  let tio2 := { tio2 with c_ispeed := to_u32 speed }
  { tio2 with c_ospeed := to_u32 speed }

/-- The program `main(argc, argv)`, with `argc = argv.length`, started on a device whose
configuration is `dev`.  Returns the exit status and the world at exit. -/
def main (hdr : Termbits) (k : Platform) (argv : List String) (dev : termios2) : Int × World :=
  let w : World := { dev := dev, trace := [] }
  match argv with
  | [_, path, rate] =>
    let speed : Int := (atoi rate).tdiv 16
    let (fd, w) := c_open k path OpenFlag.O_RDONLY w
    if fd = -1 then (1, perror "open" w) else
    let (rc, tio2, w) := ioctl_TCGETS2 k fd k.tio2_uninit w
    if rc ≠ 0 then (1, perror "ioctl TCGETS2" w) else
    let tio2 := set_speed hdr speed tio2
    let (rc, w) := ioctl_TCSETS2 k fd tio2 w
    if rc ≠ 0 then (1, perror "ioctl TCSETS2" w) else
    let w := close fd w
    (0, w)
  | _ => (1, printf "ERROR: Incorrect invocation\n" w)

/-! ## Reading a trace -/

/-- The blocks handed to `TCSETS2` requests in a trace. -/
def set_blocks : List Event → List termios2
  | [] => []
  | Event.ioctl_TCSETS2 _ arg :: es => arg :: set_blocks es
  | _ :: es => set_blocks es

/-- Whether an event is a request to the operating system. -/
def is_request : Event → Bool
  | Event.printf _ => false
  | Event.perror _ => false
  | _ => true

/-- Whether an event is output of the process. -/
def is_output : Event → Bool
  | Event.printf _ => true
  | Event.perror _ => true
  | _ => false

/-- A platform on which every call succeeds, with descriptor `3`. -/
def all_ok : Platform :=
  { open_ret := fun _ => 3, tcgets2_rc := fun _ => 0, tcsets2_rc := fun _ _ => 0,
    tio2_uninit := ⟨0, 0, 0, 0, 0, [], 0, 0⟩ }

/-- A sample device configuration: 9600 baud from the table (`B9600 = 015`), `CS8 | CREAD`. -/
def sample_dev : termios2 :=
  { c_iflag := 1280, c_oflag := 5, c_cflag := 189, c_lflag := 35387, c_line := 0,
    c_cc := [3, 28, 127, 21, 4, 0, 1, 0, 17, 19, 26, 0, 18, 15, 23, 22, 0, 0, 0],
    c_ispeed := 9600, c_ospeed := 9600 }

/-- Value of a string of decimal digits, most significant first. -/
def decimal_value (ds : List Char) : Nat :=
  ds.foldl (fun a c => a * 10 + (c.toNat - 48)) 0

/-- The integer denoted by an optional sign (`""`, `"+"` or `"-"`) and a magnitude. -/
def signed_value (sgn : List Char) (n : Nat) : Int :=
  if sgn = ['-'] then -(n : Int) else (n : Int)

/-- A platform on which `open` fails. -/
def open_fails : Platform := { all_ok with open_ret := fun _ => -1 }

/-- A platform on which the get-request fails (the device is no terminal). -/
def get_fails : Platform := { all_ok with tcgets2_rc := fun _ => -1 }

/-- A platform on which the set-request fails (the driver rejects the block). -/
def set_fails : Platform := { all_ok with tcsets2_rc := fun _ _ => -1 }

/-- The four requests of a fully successful run, in order. -/
def full_sequence (path : String) (fd : Int) (blk : termios2) : List Event :=
  [Event.c_open path OpenFlag.O_RDONLY, Event.ioctl_TCGETS2 fd,
   Event.ioctl_TCSETS2 fd blk, Event.close fd]

/-- Whether an event is a `close` request. -/
def is_close : Event → Bool
  | Event.close _ => true
  | _ => false

/-! ## Unfolding `main` -/

/-- The block `main` builds from the configuration `dev` it read, for the rate string `rate`. -/
def new_block (hdr : Termbits) (rate : String) (dev : termios2) : termios2 :=
  set_speed hdr ((atoi rate).tdiv 16) dev

/-- With three arguments `main` is a chain of three tests on what the OS calls return. -/
theorem main_three (hdr : Termbits) (k : Platform) (p path rate : String) (dev : termios2) :
    main hdr k [p, path, rate] dev =
      if k.open_ret path = -1 then
        (1, ⟨dev, [Event.c_open path OpenFlag.O_RDONLY, Event.perror "open"]⟩)
      else if k.tcgets2_rc (k.open_ret path) ≠ 0 then
        (1, ⟨dev, [Event.c_open path OpenFlag.O_RDONLY, Event.ioctl_TCGETS2 (k.open_ret path),
                   Event.perror "ioctl TCGETS2"]⟩)
      else if k.tcsets2_rc (k.open_ret path) (new_block hdr rate dev) ≠ 0 then
        (1, ⟨dev, [Event.c_open path OpenFlag.O_RDONLY, Event.ioctl_TCGETS2 (k.open_ret path),
                   Event.ioctl_TCSETS2 (k.open_ret path) (new_block hdr rate dev),
                   Event.perror "ioctl TCSETS2"]⟩)
      else
        (0, ⟨new_block hdr rate dev,
             [Event.c_open path OpenFlag.O_RDONLY, Event.ioctl_TCGETS2 (k.open_ret path),
              Event.ioctl_TCSETS2 (k.open_ret path) (new_block hdr rate dev),
              Event.close (k.open_ret path)]⟩) := by
  simp only [main, c_open, ioctl_TCGETS2, ioctl_TCSETS2, perror, close, new_block,
    List.nil_append, List.cons_append]
  by_cases h1 : k.open_ret path = -1
  · simp [h1]
  · by_cases h2 : k.tcgets2_rc (k.open_ret path) = 0
    · by_cases h3 : k.tcsets2_rc (k.open_ret path)
          (set_speed hdr ((atoi rate).tdiv 16) dev) = 0
      · simp [h1, h2, h3]
      · simp [h1, h2, h3]
    · simp [h1, h2]

/-- With any other number of arguments `main` only prints the usage error. -/
theorem main_usage (hdr : Termbits) (k : Platform) (argv : List String) (dev : termios2)
    (h : argv.length ≠ 3) :
    main hdr k argv dev = (1, ⟨dev, [Event.printf "ERROR: Incorrect invocation\n"]⟩) := by
  match argv, h with
  | [], _ => rfl
  | [_], _ => rfl
  | [_, _], _ => rfl
  | [_, _, _], h => exact absurd rfl h
  | _ :: _ :: _ :: _ :: _, _ => rfl

/-- When `open` and the get-request succeed, exactly one set-request is issued, with `new_block`. -/
theorem set_blocks_main (hdr : Termbits) (k : Platform) (p path rate : String) (dev : termios2)
    (hopen : k.open_ret path ≠ -1) (hget : k.tcgets2_rc (k.open_ret path) = 0) :
    set_blocks (main hdr k [p, path, rate] dev).2.trace = [new_block hdr rate dev] := by
  rw [main_three]
  by_cases h3 : k.tcsets2_rc (k.open_ret path) (new_block hdr rate dev) = 0
  · simp [hopen, hget, h3, set_blocks]
  · simp [hopen, hget, h3, set_blocks]

/-! ## Arithmetic of the conversions -/

theorem tdiv16_of_nonneg (R : Int) (h : 0 ≤ R) : R.tdiv 16 = R / 16 :=
  Int.tdiv_eq_ediv h (by decide)

theorem tdiv16_of_nonpos (R : Int) (h : R ≤ 0) : R.tdiv 16 = -((-R) / 16) := by
  have h1 : R = -(-R) := by omega
  have h2 : (-(-R)).tdiv 16 = -((-R).tdiv 16) := Int.neg_tdiv (-R) 16
  rw [h1, h2, Int.tdiv_eq_ediv (by omega) (by decide)]
  simp

theorem to_i32_range (v : Int) : -2147483648 ≤ to_i32 v ∧ to_i32 v < 2147483648 := by
  unfold to_i32
  simp only
  split <;> omega

theorem to_i32_of_range (v : Int) (h1 : -2147483648 ≤ v) (h2 : v < 2147483648) :
    to_i32 v = v := by
  unfold to_i32
  simp only
  split <;> omega

theorem atoi_range (s : String) : -2147483648 ≤ atoi s ∧ atoi s < 2147483648 :=
  to_i32_range _

theorem to_u32_cast (v : Int) : ((to_u32 v : Nat) : Int) = v % 4294967296 := by
  unfold to_u32
  omega

theorem to_u32_lt (v : Int) : to_u32 v < 4294967296 := by
  unfold to_u32
  omega

theorem to_u32_of_nat (n : Nat) (h : n < 4294967296) : to_u32 (n : Int) = n := by
  unfold to_u32
  omega

theorem to_u32_not (n : Nat) (h : n < 4294967296) :
    to_u32 (-(n : Int) - 1) = 2 ^ 32 - (n + 1) := by
  unfold to_u32
  norm_num
  omega

/-! ## Bits of the new control flags -/

theorem bother_le (hdr : Termbits) (hwf : hdr.wf) : hdr.BOTHER ≤ hdr.CBAUD := by
  have h := hwf.2
  have h2 : hdr.BOTHER &&& hdr.CBAUD ≤ hdr.CBAUD := Nat.and_le_right
  omega

theorem cflag_testBit (hdr : Termbits) (hwf : hdr.wf) (c : Nat) (hc : c < 4294967296)
    (i : Nat) :
    ((c &&& to_u32 (-(hdr.CBAUD : Int) - 1)) ||| to_u32 (hdr.BOTHER : Int)).testBit i =
      if hdr.CBAUD.testBit i then hdr.BOTHER.testBit i else c.testBit i := by
  have hC : hdr.CBAUD < 4294967296 := by have := hwf.1; omega
  have hB : hdr.BOTHER < 4294967296 := by have := bother_le hdr hwf; omega
  rw [to_u32_not _ hC, to_u32_of_nat _ hB, Nat.testBit_or, Nat.testBit_and,
    Nat.testBit_two_pow_sub_succ (by simpa using hC)]
  have hsub : hdr.CBAUD.testBit i = false → hdr.BOTHER.testBit i = false := by
    intro h0
    have h : hdr.BOTHER.testBit i = (hdr.BOTHER.testBit i && hdr.CBAUD.testBit i) := by
      rw [← Nat.testBit_and, hwf.2]
    rw [h, h0, Bool.and_false]
  by_cases hi : i < 32
  · cases hcb : hdr.CBAUD.testBit i
    · simp [hi, hsub hcb]
    · simp [hi]
  · have hc0 : c.testBit i = false := by
      apply Nat.testBit_lt_two_pow
      calc c < 2 ^ 32 := by simpa using hc
        _ ≤ 2 ^ i := Nat.pow_le_pow_right (by decide) (by omega)
    have hC0 : hdr.CBAUD.testBit i = false := by
      apply Nat.testBit_lt_two_pow
      calc hdr.CBAUD < 2 ^ 32 := by simpa using hC
        _ ≤ 2 ^ i := Nat.pow_le_pow_right (by decide) (by omega)
    simp [hi, hc0, hC0, hsub hC0]

theorem new_block_cflag (hdr : Termbits) (rate : String) (dev : termios2) :
    (new_block hdr rate dev).c_cflag =
      (dev.c_cflag &&& to_u32 (-(hdr.CBAUD : Int) - 1)) ||| to_u32 (hdr.BOTHER : Int) := rfl

/-! ## The speed fields -/

/-- C1, as stated, fails at the rate string `-32`: the parse gives `R = -32`, `R / 16` is
`-2`, and the block handed to the set-request carries `4294967294` in both speed fields. -/
theorem C1_negative_rate_counterexample :
    atoi "-32" = -32 ∧ (atoi "-32").tdiv 16 = -2 ∧
    all_ok.open_ret "/dev/ttyS0" ≠ -1 ∧ all_ok.tcgets2_rc (all_ok.open_ret "/dev/ttyS0") = 0 ∧
    (set_blocks (main asm_generic all_ok ["stty-plus", "/dev/ttyS0", "-32"]
        sample_dev).2.trace).map (fun b => ((b.c_ispeed : Int), (b.c_ospeed : Int)))
      = [(4294967294, 4294967294)] ∧
    ¬ ∀ b ∈ set_blocks (main asm_generic all_ok ["stty-plus", "/dev/ttyS0", "-32"]
        sample_dev).2.trace,
        (b.c_ispeed : Int) = (atoi "-32").tdiv 16 ∧ (b.c_ospeed : Int) = (atoi "-32").tdiv 16 := by
  refine ⟨by decide, by decide, by decide, by decide, by decide, ?_⟩
  intro h
  have hb := h (new_block asm_generic "-32" sample_dev) (by
    rw [set_blocks_main _ _ _ _ _ _ (by decide) (by decide)]
    exact List.mem_singleton.mpr rfl)
  revert hb
  decide

/-- C1 (amended): whenever `open` and the get-request succeed, exactly one block is handed
to the set-request, and for the parsed rate `R = atoi rate` both of its speed fields hold
`R / 16` (truncating division) reduced modulo `2^32`; this is `R / 16` itself whenever
`R ≥ -15`. -/
theorem C1_speed_fields (hdr : Termbits) (k : Platform) (p path rate : String)
    (dev : termios2) (hopen : k.open_ret path ≠ -1)
    (hget : k.tcgets2_rc (k.open_ret path) = 0) :
    ∃ blk, set_blocks (main hdr k [p, path, rate] dev).2.trace = [blk] ∧
      (blk.c_ispeed : Int) = (atoi rate).tdiv 16 % 4294967296 ∧
      (blk.c_ospeed : Int) = (atoi rate).tdiv 16 % 4294967296 ∧
      (-15 ≤ atoi rate →
        (blk.c_ispeed : Int) = (atoi rate).tdiv 16 ∧
        (blk.c_ospeed : Int) = (atoi rate).tdiv 16) := by
  refine ⟨new_block hdr rate dev, set_blocks_main hdr k p path rate dev hopen hget,
    to_u32_cast _, to_u32_cast _, ?_⟩
  intro hR
  have hr := atoi_range rate
  have hval : (((new_block hdr rate dev).c_ispeed : Nat) : Int) = (atoi rate).tdiv 16 := by
    show ((to_u32 ((atoi rate).tdiv 16) : Nat) : Int) = (atoi rate).tdiv 16
    rw [to_u32_cast]
    by_cases h0 : 0 ≤ atoi rate
    · rw [tdiv16_of_nonneg _ h0]
      omega
    · rw [tdiv16_of_nonpos _ (by omega)]
      omega
  exact ⟨hval, hval⟩

/-- C1 at the rate `115200` on a device where every call succeeds: the block written has
`7200` in both speed fields. -/
theorem C1_speed_fields_witness :
    all_ok.open_ret "/dev/ttyS0" ≠ -1 ∧ all_ok.tcgets2_rc (all_ok.open_ret "/dev/ttyS0") = 0 ∧
    (atoi "115200").tdiv 16 = 7200 ∧
    ∃ blk, set_blocks (main asm_generic all_ok ["stty-plus", "/dev/ttyS0", "115200"]
        sample_dev).2.trace = [blk] ∧
      (blk.c_ispeed : Int) = (atoi "115200").tdiv 16 % 4294967296 ∧
      (blk.c_ospeed : Int) = (atoi "115200").tdiv 16 % 4294967296 ∧
      (-15 ≤ atoi "115200" →
        (blk.c_ispeed : Int) = (atoi "115200").tdiv 16 ∧
        (blk.c_ospeed : Int) = (atoi "115200").tdiv 16) :=
  ⟨by decide, by decide, by decide,
    C1_speed_fields asm_generic all_ok "stty-plus" "/dev/ttyS0" "115200" sample_dev
      (by decide) (by decide)⟩

/-! ## The control flags -/

/-- C2: with the header constants well formed (`BOTHER` a sub-mask of `CBAUD`) and `c` the
32-bit control-flags value read from the device, the block handed to the set-request has
control flags `(c AND NOT CBAUD) OR BOTHER`: inside `CBAUD` its bits are exactly those of
`BOTHER`, and outside `CBAUD` they are the bits of `c`. -/
theorem C2_control_flags (hdr : Termbits) (k : Platform) (p path rate : String)
    (dev : termios2) (hwf : hdr.wf) (hc : dev.c_cflag < 4294967296)
    (hopen : k.open_ret path ≠ -1) (hget : k.tcgets2_rc (k.open_ret path) = 0) :
    ∃ blk, set_blocks (main hdr k [p, path, rate] dev).2.trace = [blk] ∧
      blk.c_cflag = (dev.c_cflag &&& (4294967295 - hdr.CBAUD)) ||| hdr.BOTHER ∧
      (∀ i, hdr.CBAUD.testBit i = true → blk.c_cflag.testBit i = hdr.BOTHER.testBit i) ∧
      (∀ i, hdr.CBAUD.testBit i = false → blk.c_cflag.testBit i = dev.c_cflag.testBit i) := by
  have hC : hdr.CBAUD < 4294967296 := by have := hwf.1; omega
  have hB : hdr.BOTHER < 4294967296 := by have := bother_le hdr hwf; omega
  refine ⟨new_block hdr rate dev, set_blocks_main hdr k p path rate dev hopen hget, ?_, ?_, ?_⟩
  · rw [new_block_cflag, to_u32_not _ hC, to_u32_of_nat _ hB]
    have : 2 ^ 32 - (hdr.CBAUD + 1) = 4294967295 - hdr.CBAUD := by omega
    rw [this]
  · intro i hi
    rw [new_block_cflag, cflag_testBit hdr hwf _ hc i, if_pos hi]
  · intro i hi
    rw [new_block_cflag, cflag_testBit hdr hwf _ hc i, hi]
    simp

/-- C2 on the sample device (`c_cflag = 0275`) with the `asm-generic` constants. -/
theorem C2_control_flags_witness :
    asm_generic.wf ∧ sample_dev.c_cflag < 4294967296 ∧
    all_ok.open_ret "/dev/ttyS0" ≠ -1 ∧ all_ok.tcgets2_rc (all_ok.open_ret "/dev/ttyS0") = 0 ∧
    ∃ blk, set_blocks (main asm_generic all_ok ["stty-plus", "/dev/ttyS0", "38400"]
        sample_dev).2.trace = [blk] ∧
      blk.c_cflag = (sample_dev.c_cflag &&& (4294967295 - asm_generic.CBAUD))
        ||| asm_generic.BOTHER ∧
      (∀ i, asm_generic.CBAUD.testBit i = true →
        blk.c_cflag.testBit i = asm_generic.BOTHER.testBit i) ∧
      (∀ i, asm_generic.CBAUD.testBit i = false →
        blk.c_cflag.testBit i = sample_dev.c_cflag.testBit i) :=
  ⟨by decide, by decide, by decide, by decide,
    C2_control_flags asm_generic all_ok "stty-plus" "/dev/ttyS0" "38400" sample_dev
      (by decide) (by decide) (by decide) (by decide)⟩

/-! ## Frame: the fields left alone -/

/-- C3: the block handed to the set-request agrees with the block `t` the get-request
returned on `c_iflag`, `c_oflag`, `c_lflag`, `c_line` and all of `c_cc`; only `c_cflag`,
`c_ispeed` and `c_ospeed` can differ. -/
theorem C3_other_fields_preserved (hdr : Termbits) (k : Platform) (p path rate : String)
    (t : termios2) (hopen : k.open_ret path ≠ -1)
    (hget : k.tcgets2_rc (k.open_ret path) = 0) :
    ∃ blk, set_blocks (main hdr k [p, path, rate] t).2.trace = [blk] ∧
      blk.c_iflag = t.c_iflag ∧ blk.c_oflag = t.c_oflag ∧ blk.c_lflag = t.c_lflag ∧
      blk.c_line = t.c_line ∧ blk.c_cc = t.c_cc ∧
      blk = { t with c_cflag := blk.c_cflag, c_ispeed := blk.c_ispeed,
                     c_ospeed := blk.c_ospeed } :=
  ⟨new_block hdr rate t, set_blocks_main hdr k p path rate t hopen hget,
    rfl, rfl, rfl, rfl, rfl, rfl⟩

/-- C3 on the sample device at rate `9600`. -/
theorem C3_other_fields_preserved_witness :
    all_ok.open_ret "/dev/ttyS0" ≠ -1 ∧ all_ok.tcgets2_rc (all_ok.open_ret "/dev/ttyS0") = 0 ∧
    ∃ blk, set_blocks (main asm_generic all_ok ["stty-plus", "/dev/ttyS0", "9600"]
        sample_dev).2.trace = [blk] ∧
      blk.c_iflag = sample_dev.c_iflag ∧ blk.c_oflag = sample_dev.c_oflag ∧
      blk.c_lflag = sample_dev.c_lflag ∧ blk.c_line = sample_dev.c_line ∧
      blk.c_cc = sample_dev.c_cc ∧
      blk = { sample_dev with c_cflag := blk.c_cflag, c_ispeed := blk.c_ispeed,
                              c_ospeed := blk.c_ospeed } :=
  ⟨by decide, by decide,
    C3_other_fields_preserved asm_generic all_ok "stty-plus" "/dev/ttyS0" "9600" sample_dev
      (by decide) (by decide)⟩

/-! ## Wrong number of arguments -/

/-- C4: when `argc ≠ 3` the exit status is `1`, the only event of the run is the line
`ERROR: Incorrect invocation` on standard output, no OS request is issued (no open, no
get- or set-request), and the device is left as it was. -/
theorem C4_usage_error (hdr : Termbits) (k : Platform) (argv : List String) (dev : termios2)
    (hargc : argv.length ≠ 3) :
    (main hdr k argv dev).1 = 1 ∧
    (main hdr k argv dev).2.trace = [Event.printf "ERROR: Incorrect invocation\n"] ∧
    (main hdr k argv dev).2.trace.filter is_request = [] ∧
    (main hdr k argv dev).2.dev = dev := by
  rw [main_usage hdr k argv dev hargc]
  exact ⟨rfl, rfl, rfl, rfl⟩

/-- C4 with a single positional argument. -/
theorem C4_usage_error_witness :
    ["stty-plus", "/dev/ttyS0"].length ≠ 3 ∧
    (main asm_generic all_ok ["stty-plus", "/dev/ttyS0"] sample_dev).1 = 1 ∧
    (main asm_generic all_ok ["stty-plus", "/dev/ttyS0"] sample_dev).2.trace
      = [Event.printf "ERROR: Incorrect invocation\n"] ∧
    (main asm_generic all_ok ["stty-plus", "/dev/ttyS0"] sample_dev).2.trace.filter is_request
      = [] ∧
    (main asm_generic all_ok ["stty-plus", "/dev/ttyS0"] sample_dev).2.dev = sample_dev :=
  ⟨by decide, C4_usage_error asm_generic all_ok ["stty-plus", "/dev/ttyS0"] sample_dev
    (by decide)⟩

/-! ## Failure leaves the device alone -/

/-- C5: if the run ends with a non-zero status (wrong argument count, open, get or set
failure) the device configuration after the run is the one found before it; and whenever
the configuration after the run differs from the one before, there were three arguments,
`open`, the get-request and the set-request all succeeded, and the status is `0`. -/
theorem C5_all_or_nothing (hdr : Termbits) (k : Platform) (argv : List String)
    (dev : termios2) :
    ((main hdr k argv dev).1 ≠ 0 → (main hdr k argv dev).2.dev = dev) ∧
    ((main hdr k argv dev).2.dev ≠ dev →
      (main hdr k argv dev).1 = 0 ∧
      ∃ p path rate, argv = [p, path, rate] ∧ k.open_ret path ≠ -1 ∧
        k.tcgets2_rc (k.open_ret path) = 0 ∧
        k.tcsets2_rc (k.open_ret path) (new_block hdr rate dev) = 0) := by
  by_cases hlen : argv.length = 3
  · match argv, hlen with
    | [p, path, rate], _ =>
      rw [main_three]
      by_cases h1 : k.open_ret path = -1
      · simp [h1]
      · by_cases h2 : k.tcgets2_rc (k.open_ret path) = 0
        · by_cases h3 : k.tcsets2_rc (k.open_ret path) (new_block hdr rate dev) = 0
          · simp only [h1, h2, h3, if_false, ne_eq, not_true_eq_false, not_false_eq_true]
            exact ⟨fun h => h.elim, fun _ => ⟨trivial, p, path, rate, rfl, h1, h2, h3⟩⟩
          · simp [h1, h2, h3]
        · simp [h1, h2]
  · rw [main_usage hdr k argv dev hlen]
    simp

/-- C5 on runs that fail at each of the four places: the device keeps `sample_dev`. -/
theorem C5_all_or_nothing_witness :
    (main asm_generic all_ok ["stty-plus"] sample_dev).1 ≠ 0 ∧
    (main asm_generic open_fails ["stty-plus", "/dev/ttyS0", "9600"] sample_dev).1 ≠ 0 ∧
    (main asm_generic get_fails ["stty-plus", "/dev/ttyS0", "9600"] sample_dev).1 ≠ 0 ∧
    (main asm_generic set_fails ["stty-plus", "/dev/ttyS0", "9600"] sample_dev).1 ≠ 0 ∧
    (main asm_generic all_ok ["stty-plus"] sample_dev).2.dev = sample_dev ∧
    (main asm_generic open_fails ["stty-plus", "/dev/ttyS0", "9600"] sample_dev).2.dev
      = sample_dev ∧
    (main asm_generic get_fails ["stty-plus", "/dev/ttyS0", "9600"] sample_dev).2.dev
      = sample_dev ∧
    (main asm_generic set_fails ["stty-plus", "/dev/ttyS0", "9600"] sample_dev).2.dev
      = sample_dev :=
  ⟨by decide, by decide, by decide, by decide,
    (C5_all_or_nothing asm_generic all_ok ["stty-plus"] sample_dev).1 (by decide),
    (C5_all_or_nothing asm_generic open_fails ["stty-plus", "/dev/ttyS0", "9600"]
      sample_dev).1 (by decide),
    (C5_all_or_nothing asm_generic get_fails ["stty-plus", "/dev/ttyS0", "9600"]
      sample_dev).1 (by decide),
    (C5_all_or_nothing asm_generic set_fails ["stty-plus", "/dev/ttyS0", "9600"]
      sample_dev).1 (by decide)⟩

/-! ## Idempotence -/

theorem and_or_idem (c m b : Nat) : (((c &&& m) ||| b) &&& m) ||| b = (c &&& m) ||| b := by
  apply Nat.eq_of_testBit_eq
  intro i
  simp only [Nat.testBit_or, Nat.testBit_and]
  cases c.testBit i <;> cases m.testBit i <;> cases b.testBit i <;> rfl

theorem set_speed_idem (hdr : Termbits) (s : Int) (t : termios2) :
    set_speed hdr s (set_speed hdr s t) = set_speed hdr s t := by
  simp only [set_speed, and_or_idem]

theorem status_zero_three (hdr : Termbits) (k : Platform) (argv : List String)
    (dev : termios2) (h : (main hdr k argv dev).1 = 0) :
    ∃ p path rate, argv = [p, path, rate] ∧
      (main hdr k argv dev).2.dev = new_block hdr rate dev := by
  by_cases hlen : argv.length = 3
  · match argv, hlen with
    | [p, path, rate], _ =>
      refine ⟨p, path, rate, rfl, ?_⟩
      rw [main_three] at h ⊢
      by_cases h1 : k.open_ret path = -1
      · simp [h1] at h
      · by_cases h2 : k.tcgets2_rc (k.open_ret path) = 0
        · by_cases h3 : k.tcsets2_rc (k.open_ret path) (new_block hdr rate dev) = 0
          · simp [h1, h2, h3]
          · simp [h1, h2, h3] at h
        · simp [h1, h2] at h
  · rw [main_usage hdr k argv dev hlen] at h
    simp at h

/-- C6: if a run with arguments `argv` succeeds from configuration `dev`, and a second run
with the same arguments succeeds from the configuration the first one left (whatever the OS
answers the second time), the final configuration is the one the first run left; and the
in-memory mutation `m_s` (clear `CBAUD`, set `BOTHER`, both speeds `s`) satisfies
`m_s (m_s t) = m_s t` for every block `t`. -/
theorem C6_idempotent (hdr : Termbits) (k1 k2 : Platform) (argv : List String)
    (dev : termios2) (h1 : (main hdr k1 argv dev).1 = 0)
    (h2 : (main hdr k2 argv (main hdr k1 argv dev).2.dev).1 = 0) :
    (main hdr k2 argv (main hdr k1 argv dev).2.dev).2.dev = (main hdr k1 argv dev).2.dev ∧
    ∀ (s : Int) (t : termios2), set_speed hdr s (set_speed hdr s t) = set_speed hdr s t := by
  refine ⟨?_, set_speed_idem hdr⟩
  obtain ⟨p, path, rate, hargv, hd1⟩ := status_zero_three hdr k1 argv dev h1
  obtain ⟨p', path', rate', hargv', hd2⟩ := status_zero_three hdr k2 argv _ h2
  rw [hargv] at hargv'
  have hrate : rate = rate' := by
    have := List.cons.inj hargv'
    have := List.cons.inj this.2
    exact (List.cons.inj this.2).1
  rw [hd2, hd1, ← hrate]
  exact set_speed_idem hdr _ _

/-- C6 on the sample device at rate `38400`, every call succeeding both times. -/
theorem C6_idempotent_witness :
    (main asm_generic all_ok ["stty-plus", "/dev/ttyS0", "38400"] sample_dev).1 = 0 ∧
    (main asm_generic all_ok ["stty-plus", "/dev/ttyS0", "38400"]
      (main asm_generic all_ok ["stty-plus", "/dev/ttyS0", "38400"] sample_dev).2.dev).1 = 0 ∧
    (main asm_generic all_ok ["stty-plus", "/dev/ttyS0", "38400"]
      (main asm_generic all_ok ["stty-plus", "/dev/ttyS0", "38400"] sample_dev).2.dev).2.dev
      = (main asm_generic all_ok ["stty-plus", "/dev/ttyS0", "38400"] sample_dev).2.dev ∧
    ∀ (s : Int) (t : termios2),
      set_speed asm_generic s (set_speed asm_generic s t) = set_speed asm_generic s t :=
  ⟨by decide, by decide,
    C6_idempotent asm_generic all_ok all_ok ["stty-plus", "/dev/ttyS0", "38400"] sample_dev
      (by decide) (by decide)⟩

/-! ## Exit status -/

/-- C7: the exit status is `0` or `1` and nothing else; it is `0` exactly when there are
two positional arguments and `open`, the get-request and the set-request all succeed, so
each of the four failures (argument count, open, get, set) gives status `1`. -/
theorem C7_exit_status (hdr : Termbits) (k : Platform) (argv : List String)
    (dev : termios2) :
    ((main hdr k argv dev).1 = 0 ∨ (main hdr k argv dev).1 = 1) ∧
    ((main hdr k argv dev).1 = 0 ↔
      ∃ p path rate, argv = [p, path, rate] ∧ k.open_ret path ≠ -1 ∧
        k.tcgets2_rc (k.open_ret path) = 0 ∧
        k.tcsets2_rc (k.open_ret path) (new_block hdr rate dev) = 0) ∧
    (argv.length ≠ 3 → (main hdr k argv dev).1 = 1) ∧
    (∀ p path rate, argv = [p, path, rate] →
      (k.open_ret path = -1 → (main hdr k argv dev).1 = 1) ∧
      (k.open_ret path ≠ -1 → k.tcgets2_rc (k.open_ret path) ≠ 0 →
        (main hdr k argv dev).1 = 1) ∧
      (k.open_ret path ≠ -1 → k.tcgets2_rc (k.open_ret path) = 0 →
        k.tcsets2_rc (k.open_ret path) (new_block hdr rate dev) ≠ 0 →
        (main hdr k argv dev).1 = 1)) := by
  by_cases hlen : argv.length = 3
  · match argv, hlen with
    | [p, path, rate], _ =>
      rw [main_three]
      by_cases h1 : k.open_ret path = -1
      · simp [h1]
      · by_cases h2 : k.tcgets2_rc (k.open_ret path) = 0
        · by_cases h3 : k.tcsets2_rc (k.open_ret path) (new_block hdr rate dev) = 0
          · simp [h1, h2, h3]
            exact ⟨p, path, rate, ⟨rfl, rfl, rfl⟩, h1, h2, h3⟩
          · simp [h1, h2, h3]
        · simp [h1, h2]
  · rw [main_usage hdr k argv dev hlen]
    refine ⟨Or.inr rfl, ?_, fun _ => rfl, ?_⟩
    · constructor
      · intro h
        simp at h
      · rintro ⟨p, path, rate, hargv, _⟩
        rw [hargv] at hlen
        exact absurd rfl hlen
    · intro p path rate hargv
      rw [hargv] at hlen
      exact absurd rfl hlen

/-! ## Order of the requests -/

/-- C9: with two positional arguments, the requests issued are a leading part of
`open` (read-only), `TCGETS2`, `TCSETS2`, `close`, stopping at the first request that
fails, and the failing step is named by the diagnostic: after a failed `open` the trace
is `open`, `perror "open"`; after a failed get it is `open`, get, `perror "ioctl TCGETS2"`;
after a failed set it is `open`, get, set, `perror "ioctl TCSETS2"`; otherwise it is the
four requests.  A `close` request occurs exactly when the status is `0`. -/
theorem C9_request_sequence (hdr : Termbits) (k : Platform) (p path rate : String)
    (dev : termios2) :
    (main hdr k [p, path, rate] dev).2.trace.filter is_request
      <+: full_sequence path (k.open_ret path) (new_block hdr rate dev) ∧
    (k.open_ret path = -1 →
      (main hdr k [p, path, rate] dev).2.trace
        = [Event.c_open path OpenFlag.O_RDONLY, Event.perror "open"]) ∧
    (k.open_ret path ≠ -1 → k.tcgets2_rc (k.open_ret path) ≠ 0 →
      (main hdr k [p, path, rate] dev).2.trace
        = [Event.c_open path OpenFlag.O_RDONLY, Event.ioctl_TCGETS2 (k.open_ret path),
           Event.perror "ioctl TCGETS2"]) ∧
    (k.open_ret path ≠ -1 → k.tcgets2_rc (k.open_ret path) = 0 →
      k.tcsets2_rc (k.open_ret path) (new_block hdr rate dev) ≠ 0 →
      (main hdr k [p, path, rate] dev).2.trace
        = [Event.c_open path OpenFlag.O_RDONLY, Event.ioctl_TCGETS2 (k.open_ret path),
           Event.ioctl_TCSETS2 (k.open_ret path) (new_block hdr rate dev),
           Event.perror "ioctl TCSETS2"]) ∧
    (k.open_ret path ≠ -1 → k.tcgets2_rc (k.open_ret path) = 0 →
      k.tcsets2_rc (k.open_ret path) (new_block hdr rate dev) = 0 →
      (main hdr k [p, path, rate] dev).2.trace
        = full_sequence path (k.open_ret path) (new_block hdr rate dev)) ∧
    ((main hdr k [p, path, rate] dev).2.trace.any is_close = true ↔
      (main hdr k [p, path, rate] dev).1 = 0) := by
  rw [main_three]
  by_cases h1 : k.open_ret path = -1
  · simp only [h1, if_true]
    refine ⟨⟨[Event.ioctl_TCGETS2 (-1), Event.ioctl_TCSETS2 (-1) (new_block hdr rate dev),
      Event.close (-1)], rfl⟩, ?_⟩
    simp [is_close]
  · by_cases h2 : k.tcgets2_rc (k.open_ret path) = 0
    · by_cases h3 : k.tcsets2_rc (k.open_ret path) (new_block hdr rate dev) = 0
      · simp only [h1, h2, h3, if_false, ne_eq, not_true_eq_false, not_false_eq_true]
        refine ⟨⟨[], by simp [full_sequence, is_request]⟩, ?_⟩
        simp [is_close, full_sequence]
      · simp only [h1, h2, h3, if_false, ne_eq, not_true_eq_false, not_false_eq_true,
          if_true]
        refine ⟨⟨[Event.close (k.open_ret path)], rfl⟩, ?_⟩
        simp [is_close]
    · simp only [h1, h2, if_false, ne_eq, not_false_eq_true, if_true]
      refine ⟨⟨[Event.ioctl_TCSETS2 (k.open_ret path) (new_block hdr rate dev),
        Event.close (k.open_ret path)], rfl⟩, ?_⟩
      simp [is_close]

/-! ## Negative rates -/

/-- C10: when the parsed rate `R = atoi rate` is negative, both speed fields of the block
handed to the set-request hold `(R / 16 truncated) mod 2^32`: `0` for `-15 ≤ R ≤ -1`, and
`2^32 - |R| / 16` for `R ≤ -16`, a non-negative number different from `R / 16`. -/
theorem C10_negative_rate (hdr : Termbits) (k : Platform) (p path rate : String)
    (dev : termios2) (hopen : k.open_ret path ≠ -1)
    (hget : k.tcgets2_rc (k.open_ret path) = 0) (hneg : atoi rate < 0) :
    ∃ blk, set_blocks (main hdr k [p, path, rate] dev).2.trace = [blk] ∧
      blk.c_ospeed = blk.c_ispeed ∧
      (blk.c_ispeed : Int) = (atoi rate).tdiv 16 % 4294967296 ∧
      (-15 ≤ atoi rate → blk.c_ispeed = 0) ∧
      (atoi rate ≤ -16 →
        blk.c_ispeed = 4294967296 - (atoi rate).natAbs / 16 ∧
        (atoi rate).natAbs / 16 ≤ 134217728 ∧
        (blk.c_ispeed : Int) ≠ (atoi rate).tdiv 16) ∧
      (0 : Int) ≤ (blk.c_ispeed : Int) := by
  have hr := atoi_range rate
  have hdiv := tdiv16_of_nonpos (atoi rate) (by omega)
  have hcast : (((new_block hdr rate dev).c_ispeed : Nat) : Int)
      = (atoi rate).tdiv 16 % 4294967296 := to_u32_cast _
  refine ⟨new_block hdr rate dev, set_blocks_main hdr k p path rate dev hopen hget, rfl,
    hcast, ?_, ?_, by omega⟩
  · intro h15
    rw [hdiv] at hcast
    omega
  · intro h16
    rw [hdiv] at hcast
    refine ⟨by omega, by omega, ?_⟩
    rw [hdiv]
    omega

/-- C10 at the rate string `-32`: both fields hold `4294967294`. -/
theorem C10_negative_rate_witness :
    all_ok.open_ret "/dev/ttyS0" ≠ -1 ∧ all_ok.tcgets2_rc (all_ok.open_ret "/dev/ttyS0") = 0 ∧
    atoi "-32" < 0 ∧
    ∃ blk, set_blocks (main asm_generic all_ok ["stty-plus", "/dev/ttyS0", "-32"]
        sample_dev).2.trace = [blk] ∧
      blk.c_ospeed = blk.c_ispeed ∧
      (blk.c_ispeed : Int) = (atoi "-32").tdiv 16 % 4294967296 ∧
      (-15 ≤ atoi "-32" → blk.c_ispeed = 0) ∧
      (atoi "-32" ≤ -16 →
        blk.c_ispeed = 4294967296 - (atoi "-32").natAbs / 16 ∧
        (atoi "-32").natAbs / 16 ≤ 134217728 ∧
        (blk.c_ispeed : Int) ≠ (atoi "-32").tdiv 16) ∧
      (0 : Int) ≤ (blk.c_ispeed : Int) :=
  ⟨by decide, by decide, by decide,
    C10_negative_rate asm_generic all_ok "stty-plus" "/dev/ttyS0" "-32" sample_dev
      (by decide) (by decide) (by decide)⟩

/-! ## The lenient parse of the rate -/

theorem dropWhile_spaces (ws tail : List Char) (hws : ∀ c ∈ ws, isspace c = true)
    (htail : ∀ c ∈ tail.head?, isspace c = false) :
    (ws ++ tail).dropWhile isspace = tail := by
  induction ws with
  | nil =>
    cases tail with
    | nil => rfl
    | cons c cs =>
      have h : isspace c = false := htail c rfl
      simp [List.dropWhile, h]
  | cons w ws ih =>
    have hw : isspace w = true := hws w (List.mem_cons_self _ _)
    simp only [List.cons_append, List.dropWhile, hw]
    exact ih (fun c hc => hws c (List.mem_cons_of_mem _ hc))

theorem digits_value_run (ds rest : List Char) (hds : ∀ c ∈ ds, isdigit c = true)
    (hmax : ∀ c ∈ rest.head?, isdigit c = false) (acc : Nat) :
    digits_value acc (ds ++ rest) = ds.foldl (fun a c => a * 10 + (c.toNat - 48)) acc := by
  induction ds generalizing acc with
  | nil =>
    cases rest with
    | nil => rfl
    | cons c cs =>
      have h : isdigit c = false := hmax c rfl
      simp [digits_value, h]
  | cons d ds ih =>
    have hd : isdigit d = true := hds d (List.mem_cons_self _ _)
    simp only [List.cons_append, digits_value, hd, if_true, List.foldl_cons]
    exact ih (fun c hc => hds c (List.mem_cons_of_mem _ hc)) _

theorem digit_not_special (c : Char) (h : isdigit c = true) :
    isspace c = false ∧ c ≠ '-' ∧ c ≠ '+' := by
  simp only [isdigit, Bool.and_eq_true, decide_eq_true_eq] at h
  refine ⟨?_, ?_, ?_⟩
  · simp only [isspace, Bool.or_eq_false_iff, Bool.and_eq_false_iff, decide_eq_false_iff_not]
    omega
  · intro hc
    rw [hc] at h
    revert h
    decide
  · intro hc
    rw [hc] at h
    revert h
    decide

theorem take_sign_plain (l : List Char)
    (h : ∀ c ∈ l.head?, c ≠ '-' ∧ c ≠ '+') : take_sign l = (false, l) := by
  cases l with
  | nil => rfl
  | cons c cs =>
    have hc := h c rfl
    simp [take_sign, hc.1, hc.2]

theorem head_unsigned (ds rest : List Char) (hds : ∀ c ∈ ds, isdigit c = true)
    (hgreedy : ds = [] → ∀ c ∈ rest.head?, isspace c = false ∧ c ≠ '-' ∧ c ≠ '+') :
    ∀ c ∈ (ds ++ rest).head?, isspace c = false ∧ c ≠ '-' ∧ c ≠ '+' := by
  cases ds with
  | nil => simpa using hgreedy rfl
  | cons d ds =>
    intro c hc
    have hcd : c = d := by simpa using hc.symm
    rw [hcd]
    exact digit_not_special d (hds d (List.mem_cons_self _ _))

theorem sign_and_digits (ws sgn ds rest : List Char)
    (hws : ∀ c ∈ ws, isspace c = true)
    (hsgn : sgn = [] ∨ sgn = ['+'] ∨ sgn = ['-'])
    (hds : ∀ c ∈ ds, isdigit c = true)
    (hgreedy : sgn = [] → ds = [] →
      ∀ c ∈ rest.head?, isspace c = false ∧ c ≠ '-' ∧ c ≠ '+') :
    take_sign ((ws ++ sgn ++ ds ++ rest).dropWhile isspace)
      = (decide (sgn = ['-']), ds ++ rest) := by
  rcases hsgn with h | h | h
  · subst h
    have hhead := head_unsigned ds rest hds (hgreedy rfl)
    have hdrop : (ws ++ [] ++ ds ++ rest).dropWhile isspace = ds ++ rest := by
      rw [List.append_nil, List.append_assoc]
      exact dropWhile_spaces ws (ds ++ rest) hws (fun c hc => (hhead c hc).1)
    rw [hdrop, take_sign_plain _ (fun c hc => (hhead c hc).2)]
    rfl
  · subst h
    have hdrop : (ws ++ ['+'] ++ ds ++ rest).dropWhile isspace = '+' :: (ds ++ rest) := by
      have : ws ++ ['+'] ++ ds ++ rest = ws ++ ('+' :: (ds ++ rest)) := by simp
      rw [this]
      exact dropWhile_spaces ws _ hws (by
        intro c hc
        have : c = '+' := by simpa using hc.symm
        rw [this]
        decide)
    rw [hdrop]
    rfl
  · subst h
    have hdrop : (ws ++ ['-'] ++ ds ++ rest).dropWhile isspace = '-' :: (ds ++ rest) := by
      have : ws ++ ['-'] ++ ds ++ rest = ws ++ ('-' :: (ds ++ rest)) := by simp
      rw [this]
      exact dropWhile_spaces ws _ hws (by
        intro c hc
        have : c = '-' := by simpa using hc.symm
        rw [this]
        decide)
    rw [hdrop]
    rfl

theorem atoi_decomposed (ws sgn ds rest : List Char)
    (hws : ∀ c ∈ ws, isspace c = true)
    (hsgn : sgn = [] ∨ sgn = ['+'] ∨ sgn = ['-'])
    (hds : ∀ c ∈ ds, isdigit c = true)
    (hmax : ∀ c ∈ rest.head?, isdigit c = false)
    (hgreedy : sgn = [] → ds = [] →
      ∀ c ∈ rest.head?, isspace c = false ∧ c ≠ '-' ∧ c ≠ '+')
    (hlo : -2147483648 ≤ signed_value sgn (decimal_value ds))
    (hhi : signed_value sgn (decimal_value ds) ≤ 2147483647) :
    atoi (String.mk (ws ++ sgn ++ ds ++ rest)) = signed_value sgn (decimal_value ds) := by
  have hv : strtol (ws ++ sgn ++ ds ++ rest) = signed_value sgn (decimal_value ds) := by
    unfold strtol
    simp only [sign_and_digits ws sgn ds rest hws hsgn hds hgreedy,
      digits_value_run ds rest hds hmax 0]
    have hval : (if decide (sgn = ['-']) = true then
          -((List.foldl (fun a c => a * 10 + (c.toNat - 48)) 0 ds : Nat) : Int)
        else ((List.foldl (fun a c => a * 10 + (c.toNat - 48)) 0 ds : Nat) : Int))
        = signed_value sgn (decimal_value ds) := by
      unfold signed_value decimal_value
      by_cases h : sgn = ['-'] <;> simp [h]
    rw [hval]
    have h1 : ¬ signed_value sgn (decimal_value ds) < LONG_MIN := by
      unfold LONG_MIN; omega
    have h2 : ¬ LONG_MAX < signed_value sgn (decimal_value ds) := by
      unfold LONG_MAX; omega
    rw [if_neg h1, if_neg h2]
  show to_i32 (strtol (ws ++ sgn ++ ds ++ rest)) = _
  rw [hv]
  exact to_i32_of_range _ hlo (by omega)

/-- C8, as stated, fails at the rate string ` -32abc` (a blank, the sign `-`, the digits
`32`, then `abc`): the signed value is `-32` and `-32 / 16` is `-2`, but the block handed
to the set-request carries `4294967294` in both speed fields. -/
theorem C8_signed_rate_counterexample :
    String.mk ([' '] ++ ['-'] ++ ['3', '2'] ++ ['a', 'b', 'c']) = " -32abc" ∧
    signed_value ['-'] (decimal_value ['3', '2']) = -32 ∧
    (signed_value ['-'] (decimal_value ['3', '2'])).tdiv 16 = -2 ∧
    all_ok.open_ret "/dev/ttyUSB0" ≠ -1 ∧
    all_ok.tcgets2_rc (all_ok.open_ret "/dev/ttyUSB0") = 0 ∧
    (set_blocks (main asm_generic all_ok ["stty-plus", "/dev/ttyUSB0", " -32abc"]
        sample_dev).2.trace).map (fun b => ((b.c_ispeed : Int), (b.c_ospeed : Int)))
      = [(4294967294, 4294967294)] := by
  decide

/-- C8 (amended): for a rate string made of leading white space `ws`, an optional sign
`sgn`, a maximal run of decimal digits `ds` of value `n` and trailing characters `rest`
(when sign and digits are both absent, `rest` starts with neither white space nor a sign),
with the signed value `v` of `sgn` and `n` in `int` range, `atoi` yields `v` and both speed
fields of the block handed to the set-request hold `v / 16` (truncating) reduced modulo
`2^32`, which is `v / 16` itself whenever `v ≥ -15`; with no digits the parse yields `0` and
the speed fields are `0`.  For every rate string whatever a set-request is issued. -/
theorem C8_lenient_parse (hdr : Termbits) (k : Platform) (p path : String) (dev : termios2)
    (ws sgn ds rest : List Char)
    (hws : ∀ c ∈ ws, isspace c = true)
    (hsgn : sgn = [] ∨ sgn = ['+'] ∨ sgn = ['-'])
    (hds : ∀ c ∈ ds, isdigit c = true)
    (hmax : ∀ c ∈ rest.head?, isdigit c = false)
    (hgreedy : sgn = [] → ds = [] →
      ∀ c ∈ rest.head?, isspace c = false ∧ c ≠ '-' ∧ c ≠ '+')
    (hlo : -2147483648 ≤ signed_value sgn (decimal_value ds))
    (hhi : signed_value sgn (decimal_value ds) ≤ 2147483647)
    (hopen : k.open_ret path ≠ -1) (hget : k.tcgets2_rc (k.open_ret path) = 0) :
    atoi (String.mk (ws ++ sgn ++ ds ++ rest)) = signed_value sgn (decimal_value ds) ∧
    (∃ blk, set_blocks (main hdr k [p, path, String.mk (ws ++ sgn ++ ds ++ rest)]
        dev).2.trace = [blk] ∧
      (blk.c_ispeed : Int) = (signed_value sgn (decimal_value ds)).tdiv 16 % 4294967296 ∧
      (blk.c_ospeed : Int) = (signed_value sgn (decimal_value ds)).tdiv 16 % 4294967296 ∧
      (-15 ≤ signed_value sgn (decimal_value ds) →
        (blk.c_ispeed : Int) = (signed_value sgn (decimal_value ds)).tdiv 16 ∧
        (blk.c_ospeed : Int) = (signed_value sgn (decimal_value ds)).tdiv 16) ∧
      (ds = [] → blk.c_ispeed = 0 ∧ blk.c_ospeed = 0)) ∧
    (ds = [] → atoi (String.mk (ws ++ sgn ++ ds ++ rest)) = 0) ∧
    (∀ rate : String, ∃ blk, set_blocks (main hdr k [p, path, rate] dev).2.trace = [blk]) := by
  have hparse := atoi_decomposed ws sgn ds rest hws hsgn hds hmax hgreedy hlo hhi
  have hzero : ds = [] → signed_value sgn (decimal_value ds) = 0 := by
    intro h
    subst h
    unfold signed_value decimal_value
    by_cases hs : sgn = ['-'] <;> simp [hs]
  have hfield : (((new_block hdr (String.mk (ws ++ sgn ++ ds ++ rest)) dev).c_ispeed : Nat)
      : Int) = (signed_value sgn (decimal_value ds)).tdiv 16 % 4294967296 := by
    show ((to_u32 ((atoi (String.mk (ws ++ sgn ++ ds ++ rest))).tdiv 16) : Nat) : Int) = _
    rw [to_u32_cast, hparse]
  refine ⟨hparse, ⟨new_block hdr _ dev, set_blocks_main hdr k p path _ dev hopen hget,
    hfield, hfield, ?_, ?_⟩, ?_, ?_⟩
  · intro h15
    have hval : (((new_block hdr (String.mk (ws ++ sgn ++ ds ++ rest)) dev).c_ispeed : Nat)
        : Int) = (signed_value sgn (decimal_value ds)).tdiv 16 := by
      rw [hfield]
      by_cases h0 : 0 ≤ signed_value sgn (decimal_value ds)
      · rw [tdiv16_of_nonneg _ h0]
        omega
      · rw [tdiv16_of_nonpos _ (by omega)]
        omega
    exact ⟨hval, hval⟩
  · intro hds0
    have hz : (((new_block hdr (String.mk (ws ++ sgn ++ ds ++ rest)) dev).c_ispeed : Nat)
        : Int) = 0 := by
      rw [hfield, hzero hds0]
      rfl
    have hz0 : (new_block hdr (String.mk (ws ++ sgn ++ ds ++ rest)) dev).c_ispeed = 0 := by
      omega
    exact ⟨hz0, hz0⟩
  · intro hds0
    rw [hparse, hzero hds0]
  · intro rate
    exact ⟨new_block hdr rate dev, set_blocks_main hdr k p path rate dev hopen hget⟩

/-- C8 at the rate string `9600abc`: the parse gives `9600` and the speed written is `600`. -/
theorem C8_lenient_parse_witness :
    String.mk ([] ++ [] ++ ['9', '6', '0', '0'] ++ ['a', 'b', 'c']) = "9600abc" ∧
    signed_value [] (decimal_value ['9', '6', '0', '0']) = 9600 ∧
    atoi (String.mk ([] ++ [] ++ ['9', '6', '0', '0'] ++ ['a', 'b', 'c']))
      = signed_value [] (decimal_value ['9', '6', '0', '0']) ∧
    (∃ blk, set_blocks (main asm_generic all_ok
        ["stty-plus", "/dev/ttyS0", String.mk ([] ++ [] ++ ['9', '6', '0', '0'] ++ ['a', 'b', 'c'])]
        sample_dev).2.trace = [blk] ∧
      (blk.c_ispeed : Int)
        = (signed_value [] (decimal_value ['9', '6', '0', '0'])).tdiv 16 % 4294967296 ∧
      (blk.c_ospeed : Int)
        = (signed_value [] (decimal_value ['9', '6', '0', '0'])).tdiv 16 % 4294967296 ∧
      (-15 ≤ signed_value [] (decimal_value ['9', '6', '0', '0']) →
        (blk.c_ispeed : Int) = (signed_value [] (decimal_value ['9', '6', '0', '0'])).tdiv 16 ∧
        (blk.c_ospeed : Int) = (signed_value [] (decimal_value ['9', '6', '0', '0'])).tdiv 16) ∧
      (['9', '6', '0', '0'] = [] → blk.c_ispeed = 0 ∧ blk.c_ospeed = 0)) ∧
    (['9', '6', '0', '0'] = [] →
      atoi (String.mk ([] ++ [] ++ ['9', '6', '0', '0'] ++ ['a', 'b', 'c'])) = 0) ∧
    (∀ rate : String, ∃ blk,
      set_blocks (main asm_generic all_ok ["stty-plus", "/dev/ttyS0", rate]
        sample_dev).2.trace = [blk]) :=
  ⟨by decide, by decide,
    C8_lenient_parse asm_generic all_ok "stty-plus" "/dev/ttyS0" sample_dev
      [] [] ['9', '6', '0', '0'] ['a', 'b', 'c']
      (by decide) (by decide) (by decide) (by decide) (by decide) (by decide) (by decide)
      (by decide) (by decide)⟩

end SttyPlus
